import Mathlib

/-!
A shallow embedding of the coolerWidget thermal-monitoring core
(`src/coolerwidget/core/thermal_service.py` and
`src/coolerwidget/core/hardware_monitor.py`) together with theorems about
its specified behaviour.

Modelling conventions:
* timestamps and window durations are integers measured in one common time
  unit (`datetime` arithmetic is linear and only `>=` comparisons occur,
  so the unit is irrelevant); the wall clock value `datetime.now()` reads
  is passed in as an explicit `now` parameter;
* float sensor values are carried as `Int` (they are only stored and
  compared, never computed with);
* Python exceptions become values of the inductive type `Exc`;
* Python `dict[str, ...]` becomes an insertion-ordered association list
  (a new key is appended at the end, as in CPython dicts);
* callbacks are modelled by their observable behaviour: a function
  returning `some e` when the call raises exception `e` and `none` when it
  returns normally;
* FIFO queues (`queue.SimpleQueue`) become lists whose head is the front
  of the queue.
-/

/-- One sensor sample: the `SensorReading` dataclass of
`hardware_monitor.py`. -/
structure SensorReading where
  name : String
  label : String
  value : Int
  unit : String
  timestamp : Int
  sensor_type : String
deriving DecidableEq, Repr

/-- A Python exception value: `RuntimeError(msg)` as raised by the monitor,
or an arbitrary exception raised by consumer callback code (identified by a
tag). -/
inductive Exc where
  | runtimeError (msg : String)
  | callbackFailure (tag : Nat)
deriving DecidableEq, Repr

/-- A batch of readings, as delivered by one poll. -/
abbrev Batch := List SensorReading

/-- The `TemperatureHistory` dataclass: a bounded store of readings. -/
structure TemperatureHistory where
  readings : List SensorReading
  max_size : Nat
deriving DecidableEq, Repr

namespace TemperatureHistory

/-- `add_reading`: append, then `del self.readings[:-self.max_size]` when
the length exceeds `max_size`.  For `max_size ≥ 1` the Python slice
`[:-max_size]` is the whole list except its last `max_size` elements, so
deleting it retains exactly the last `max_size`; for `max_size = 0` the
slice `[:-0]` equals `[:0]`, which is empty, and nothing is deleted. -/
def add_reading (h : TemperatureHistory) (r : SensorReading) : TemperatureHistory :=
  let rs := h.readings ++ [r]
  if h.max_size < rs.length then
    if h.max_size = 0 then { h with readings := rs }
    else { h with readings := rs.drop (rs.length - h.max_size) }
  else { h with readings := rs }

/-- `get_readings_for_timeframe`: keep the readings with
`timestamp >= timeframe` where `timeframe = datetime.now() - timedelta
(minutes=minutes)`; here `now` is the sampled clock value. -/
def get_readings_for_timeframe (h : TemperatureHistory) (now minutes : Int) :
    List SensorReading :=
  h.readings.filter fun r => decide (now - minutes ≤ r.timestamp)

end TemperatureHistory

/-- A JSON value as produced by `json.loads` on `sensors -j` output.
`other` covers null and arrays, which the parser only ever skips. -/
inductive JsonVal where
  | num (v : Int)
  | bool (b : Bool)
  | str (s : String)
  | obj (fields : List (String × JsonVal))
  | other

/-- Python `str(...)` applied to a decoded JSON value, as used for the
`label` field.  In the data actually consumed the label is a JSON string;
the container renderings never influence any property below. -/
def pyStr : JsonVal → String
  | .str s => s
  | .num v => toString v
  | .bool b => if b then "True" else "False"
  | .obj _ => "<dict>"
  | .other => "<other>"

/-- ASCII lowercasing, the fragment of Python `str.lower()` exercised by
chip, feature and subfeature names. -/
def lowChar (c : Char) : Char :=
  if 'A' ≤ c ∧ c ≤ 'Z' then Char.ofNat (c.toNat + 32) else c

/-- Python `s.lower()`, viewed as a character list. -/
def pyLower (s : String) : List Char := s.toList.map lowChar

/-- Python `s.startswith(p)`: `leadsWith p s` checks that `p` is a leading
segment of `s`. -/
def leadsWith : List Char → List Char → Bool
  | [], _ => true
  | _ :: _, [] => false
  | a :: as, b :: bs => a == b && leadsWith as bs

/-- Python `s.endswith(p)`. -/
def trailsWith (p s : List Char) : Bool :=
  leadsWith p.reverse s.reverse

/-- Python `p in s` substring containment. -/
def hasSub (p : List Char) : List Char → Bool
  | [] => p.isEmpty
  | c :: rest => leadsWith p (c :: rest) || hasSub p rest

/-- `HardwareMonitor._is_temperature_input`. -/
def _is_temperature_input (feature_name subfeature_name : String) : Bool :=
  let sub := pyLower subfeature_name
  let feature := pyLower feature_name
  if ¬ (trailsWith "_input".toList sub) then false
  else if hasSub "temp".toList sub || leadsWith "temp".toList feature then true
  else leadsWith "tctl".toList feature || leadsWith "tdie".toList feature

/-- `HardwareMonitor._determine_sensor_type`. -/
def _determine_sensor_type (chip_name : String) : String :=
  let chipLower := pyLower chip_name
  if hasSub "cpu".toList chipLower || hasSub "core".toList chipLower
      || hasSub "k10temp".toList chipLower then "CPU"
  else if hasSub "gpu".toList chipLower || hasSub "nvidia".toList chipLower
      || hasSub "amdgpu".toList chipLower then "GPU"
  else if hasSub "nvme".toList chipLower || hasSub "drivetemp".toList chipLower then
    "HDD/SSD"
  else "Motherboard"

/-- Numeric view of a JSON value: Python's `isinstance(value, (int, float))`
also accepts `bool` (a Python `int` subtype), with `float(True) = 1.0`. -/
def numVal : JsonVal → Option Int
  | .num v => some v
  | .bool b => some (if b then 1 else 0)
  | _ => none

/-- `HardwareMonitor.parse_sensor_data`: flatten chips → features →
temperature subfeatures into readings.  Each reading's timestamp is
`datetime.now()` at parse time, passed here as `now`. -/
def parse_sensor_data (raw_data : List (String × JsonVal)) (now : Int) :
    List SensorReading :=
  raw_data.flatMap fun chip =>
    match chip.2 with
    | .obj chip_features =>
      let sensor_type := _determine_sensor_type chip.1
      chip_features.flatMap fun feature =>
        match feature.2 with
        | .obj feature_entries =>
          let label := pyStr ((feature_entries.lookup "label").getD (.str feature.1))
          feature_entries.flatMap fun subfeature =>
            if _is_temperature_input feature.1 subfeature.1 then
              match numVal subfeature.2 with
              | some v =>
                [{ name := chip.1 ++ "_" ++ feature.1 ++ "_" ++ subfeature.1,
                   label := label, value := v, unit := "Â°C",
                   timestamp := now, sensor_type := sensor_type }]
              | none => []
            else []
        | _ => []
    | _ => []

/-- Outcome of `_execute_sensors_command` followed by `json.loads`: the
process/parsing I/O boundary, supplied as an oracle.  `.error e` means the
command raised `RuntimeError` or JSON decoding failed (re-raised as
`RuntimeError`); `.ok none` means the command output was empty;
`.ok (some v)` is the decoded JSON value. -/
abbrev RawOutcome := Except Exc (Option JsonVal)

/-- `HardwareMonitor.get_raw_sensor_data`: propagate failures, return `None`
on empty output, reject a non-dict top level, otherwise return the
top-level dict. -/
def get_raw_sensor_data (decoded : RawOutcome) :
    Except Exc (Option (List (String × JsonVal))) :=
  match decoded with
  | .error e => .error e
  | .ok none => .ok none
  | .ok (some (.obj fields)) => .ok (some fields)
  | .ok (some _) =>
    .error (.runtimeError "Unexpected sensors output format: expected top-level JSON object")

/-- `HardwareMonitor.get_current_readings`: parse when the raw data is
truthy (`None` and the empty dict are falsy in Python), else `[]`. -/
def HardwareMonitor.get_current_readings (decoded : RawOutcome) (now : Int) :
    Except Exc Batch :=
  match get_raw_sensor_data decoded with
  | .error e => .error e
  | .ok none => .ok []
  | .ok (some fields) =>
    if fields.isEmpty then .ok [] else .ok (parse_sensor_data fields now)

/-- The mutable state of a `ThermalMonitoringService` touched by the
operations below: the per-sensor history dict and the two pending FIFO
queues. -/
structure ServiceState where
  history : List (String × TemperatureHistory)
  pendingReadings : List Batch
  pendingErrors : List Exc
deriving DecidableEq, Repr

/-- The state of a freshly constructed service. -/
def ServiceState.empty : ServiceState := ⟨[], [], []⟩

/-- One iteration of the loop body of `_record_readings`: look the sensor
key (`reading.name`) up in the dict — a previously-unseen key is appended
(CPython dict insertion order), an existing key keeps its position — then
`add_reading`.  A fresh history is `TemperatureHistory([])`, whose
`max_size` takes the dataclass default 1000. -/
def recordOne (hist : List (String × TemperatureHistory)) (r : SensorReading) :
    List (String × TemperatureHistory) :=
  match hist.lookup r.name with
  | none => hist ++ [(r.name, TemperatureHistory.add_reading ⟨[], 1000⟩ r)]
  | some h => hist.map fun p => if p.1 = r.name then (p.1, h.add_reading r) else p

namespace ThermalMonitoringService

/-- `ThermalMonitoringService._record_readings`. -/
def _record_readings (st : ServiceState) (readings : Batch) : ServiceState :=
  { st with history := readings.foldl recordOne st.history }

/-- `ThermalMonitoringService.get_historical_readings`. -/
def get_historical_readings (st : ServiceState) (now : Int)
    (sensor_name : String) (minutes : Int) : List SensorReading :=
  match st.history.lookup sensor_name with
  | none => []
  | some h => h.get_readings_for_timeframe now minutes

/-- `ThermalMonitoringService.get_all_historical_readings`. -/
def get_all_historical_readings (st : ServiceState) (now : Int)
    (minutes : Int) : List (String × List SensorReading) :=
  st.history.map fun p => (p.1, p.2.get_readings_for_timeframe now minutes)

/-- `ThermalMonitoringService.get_current_readings`: the body is exactly
`return self.monitor.get_current_readings()` — no other state is read or
written. -/
def get_current_readings (st : ServiceState) (decoded : RawOutcome)
    (now : Int) : ServiceState × Except Exc Batch :=
  (st, HardwareMonitor.get_current_readings decoded now)

end ThermalMonitoringService

/-- A consumer-registered reading callback, modelled by its observable
behaviour: `some e` means the invocation raises exception `e`. -/
abbrev RCallback := Batch → Option Exc

/-- A consumer-registered error callback, modelled the same way. -/
abbrev ECallback := Exc → Option Exc

/-- Inner loop of the reading phase of `process_pending_callbacks`: invoke
every reading callback (numbered from `idx`, in registration order) on the
batch `b`; an exception raised by a callback is caught and queued
(`self._pending_errors.put(exc)`), and the loop continues with the next
callback.  Returns the invocation log and the errors queued, in order. -/
def runReadingCallbacks : List RCallback → Batch → Nat → List (Nat × Batch) × List Exc
  | [], _, _ => ([], [])
  | cb :: rest, b, idx =>
    let tail := runReadingCallbacks rest b (idx + 1)
    match cb b with
    | some exc => ((idx, b) :: tail.1, exc :: tail.2)
    | none => ((idx, b) :: tail.1, tail.2)

/-- Inner loop of the error phase: invoke every error callback on `e`.  An
exception raised by a callback is caught and discarded (`continue`), so
the loop proceeds identically whether or not the callback raised. -/
def runErrorCallbacks : List ECallback → Exc → Nat → List (Nat × Exc)
  | [], _, _ => []
  | cb :: rest, e, idx =>
    match cb e with
    | some _ => (idx, e) :: runErrorCallbacks rest e (idx + 1)
    | none => (idx, e) :: runErrorCallbacks rest e (idx + 1)

/-- First while-loop of `process_pending_callbacks`: pop every pending
batch (FIFO) and run the reading callbacks on it. -/
def drainBatches (rcbs : List RCallback) : List Batch → List (Nat × Batch) × List Exc
  | [] => ([], [])
  | b :: rest =>
    let one := runReadingCallbacks rcbs b 0
    let more := drainBatches rcbs rest
    (one.1 ++ more.1, one.2 ++ more.2)

/-- Second while-loop: pop every pending error (FIFO) and run the error
callbacks on it. -/
def drainErrors (ecbs : List ECallback) : List Exc → List (Nat × Exc)
  | [] => []
  | e :: rest => runErrorCallbacks ecbs e 0 ++ drainErrors ecbs rest

/-- The observable record of one `process_pending_callbacks` call: every
(callback index, batch) reading invocation in order, every (callback
index, error) error invocation in order, and the errors queued by failing
reading callbacks during the call. -/
structure DrainLog where
  readingInvocations : List (Nat × Batch)
  errorInvocations : List (Nat × Exc)
  queuedErrors : List Exc
deriving DecidableEq, Repr

/-- `ThermalMonitoringService.process_pending_callbacks`: drain the batch
queue first — errors raised by reading callbacks join the error queue
behind any errors already pending — then drain the error queue.  Returns
the post-call state (both queues empty, history untouched) and the
invocation log.  `rcbs`/`ecbs` are the registered callback lists, in
registration order. -/
def ThermalMonitoringService.process_pending_callbacks (rcbs : List RCallback)
    (ecbs : List ECallback) (st : ServiceState) : ServiceState × DrainLog :=
  let phase1 := drainBatches rcbs st.pendingReadings
  let phase2 := drainErrors ecbs (st.pendingErrors ++ phase1.2)
  ({ st with pendingReadings := [], pendingErrors := [] },
   ⟨phase1.1, phase2, phase1.2⟩)

/-- The lifecycle-relevant state of one service and its monitor threads.
Monitor threads are numbered in spawn order; `alive` holds the ids of the
threads whose `_monitor_loop` has not yet returned. -/
structure LifecycleState where
  alive : List Nat
  exitedIds : List Nat
  cur : Option Nat
  stopEvent : Bool
  isRunning : Bool
  nextId : Nat
  stopPC : Nat
  stopLocal : Option Nat
deriving DecidableEq, Repr

/-- The state after `__init__`: no thread, event clear, not running. -/
def lifecycleInit : LifecycleState :=
  ⟨[], [], none, false, false, 0, 0, none⟩

/-- Spawning part of `start_monitoring`: clear the stop event, set
`is_running`, create and start a fresh thread, store it in `self._thread`. -/
def lifecycleSpawn (s : LifecycleState) : LifecycleState :=
  { s with alive := s.nextId :: s.alive, cur := some s.nextId,
           stopEvent := false, isRunning := true, nextId := s.nextId + 1 }

/-- The atomic steps of the lifecycle code, at the granularity of its lock
sections:
* `startCall` — the whole body of `start_monitoring` (one lock section);
* `stopBegin` — the first lock section of `stop_monitoring` (clear
  `is_running`, set the stop event, capture `self._thread` into the local
  variable `thread`); modelled for one in-flight `stop_monitoring` call
  (`stopPC` 0 → 1);
* `stopJoin` — `thread.join()` outside the lock; enabled only once the
  captured thread has exited (or was `None`), exactly the condition under
  which `join` returns (`stopPC` 1 → 2);
* `stopEnd` — the final lock section (`self._thread = None`,
  `stopPC` 2 → 0);
* `workerExit tid` — a live monitor thread observes the stop event set,
  leaves its loop, clears `is_running` under the lock and returns. -/
inductive LifecycleAct where
  | startCall
  | stopBegin
  | stopJoin
  | stopEnd
  | workerExit (tid : Nat)
deriving DecidableEq, Repr

/-- One enabled step of the lifecycle transition system (`none` when the
action is not enabled in state `s`). -/
def lifecycleStep (s : LifecycleState) : LifecycleAct → Option LifecycleState
  | .startCall =>
    match s.cur with
    | some t => if t ∈ s.alive then some s else some (lifecycleSpawn s)
    | none => some (lifecycleSpawn s)
  | .stopBegin =>
    if s.stopPC = 0 then
      some { s with isRunning := false, stopEvent := true,
                    stopLocal := s.cur, stopPC := 1 }
    else none
  | .stopJoin =>
    if s.stopPC = 1 ∧ (match s.stopLocal with
        | none => true
        | some t => decide (t ∉ s.alive)) = true then
      some { s with stopPC := 2 }
    else none
  | .stopEnd =>
    if s.stopPC = 2 then
      some { s with cur := none, stopPC := 0, stopLocal := none }
    else none
  | .workerExit tid =>
    if tid ∈ s.alive ∧ s.stopEvent then
      some { s with alive := s.alive.erase tid,
                    exitedIds := tid :: s.exitedIds, isRunning := false }
    else none

/-- Run a sequence of lifecycle actions; `none` when some action along the
way is not enabled. -/
def execLifecycle (s : LifecycleState) : List LifecycleAct → Option LifecycleState
  | [] => some s
  | a :: rest =>
    match lifecycleStep s a with
    | none => none
    | some s' => execLifecycle s' rest

/-! ## Helper lemmas about the History store -/

/-- `add_reading` never changes the capacity. -/
theorem TemperatureHistory.add_reading_max_size (h : TemperatureHistory)
    (r : SensorReading) : (h.add_reading r).max_size = h.max_size := by
  unfold TemperatureHistory.add_reading
  dsimp only
  split
  · split <;> rfl
  · rfl

/-- One `add_reading` step, for positive capacity and a store within
capacity: the result keeps the last `max_size` elements of the appended
list. -/
theorem TemperatureHistory.add_reading_readings_eq (h : TemperatureHistory)
    (r : SensorReading) (hC : 1 ≤ h.max_size) :
    (h.add_reading r).readings =
      (h.readings ++ [r]).drop (h.readings.length + 1 - h.max_size) := by
  unfold TemperatureHistory.add_reading
  dsimp only
  split
  · split
    · omega
    · simp
  · have hz : h.readings.length + 1 - h.max_size = 0 := by
      simp only [List.length_append, List.length_singleton] at *
      omega
    simp [hz]

/-- Appending one element to the last-`C`-elements view and re-truncating
equals the last-`C`-elements view of the appended sequence. -/
theorem drop_last_append (C : Nat) (hC : 1 ≤ C) (pre : List SensorReading)
    (r : SensorReading) :
    (pre.drop (pre.length - C) ++ [r]).drop
        ((pre.drop (pre.length - C)).length + 1 - C) =
      (pre ++ [r]).drop ((pre ++ [r]).length - C) := by
  rcases le_or_lt pre.length C with hle | hgt
  · have h0 : pre.length - C = 0 := by omega
    simp [h0]
  · have hdl : (pre.drop (pre.length - C)).length = C := by
      simp only [List.length_drop]; omega
    rw [hdl]
    have h1 : C + 1 - C = 1 := by omega
    rw [h1]
    rw [List.drop_append_of_le_length (by rw [hdl]; omega)]
    rw [List.drop_drop]
    rw [List.drop_append_of_le_length (by simp only [List.length_append]; simp; omega)]
    have h2 : pre.length - C + 1 = (pre ++ [r]).length - C := by
      simp only [List.length_append, List.length_singleton]; omega
    rw [h2]

/-- Folding `add_reading` over a batch, starting from the last `C` elements
of a prefix, yields the last `C` elements of the whole sequence. -/
theorem TemperatureHistory.foldl_add_reading (C : Nat) (hC : 1 ≤ C)
    (pre rs : List SensorReading) :
    rs.foldl TemperatureHistory.add_reading ⟨pre.drop (pre.length - C), C⟩ =
      ⟨(pre ++ rs).drop ((pre ++ rs).length - C), C⟩ := by
  induction rs generalizing pre with
  | nil => simp
  | cons r rest ih =>
    have hstep : TemperatureHistory.add_reading ⟨pre.drop (pre.length - C), C⟩ r =
        ⟨(pre ++ [r]).drop ((pre ++ [r]).length - C), C⟩ := by
      have h1 := TemperatureHistory.add_reading_readings_eq
        ⟨pre.drop (pre.length - C), C⟩ r hC
      have h2 := TemperatureHistory.add_reading_max_size
        ⟨pre.drop (pre.length - C), C⟩ r
      cases hadd : TemperatureHistory.add_reading ⟨pre.drop (pre.length - C), C⟩ r
      simp only [hadd] at h1 h2
      simp only [TemperatureHistory.mk.injEq]
      constructor
      · rw [h1]; exact drop_last_append C hC pre r
      · exact h2
    rw [List.foldl_cons, hstep]
    have := ih (pre ++ [r])
    simpa [List.append_assoc] using this

/-! ## Concrete values reused by witnesses and counterexamples -/

/-- A representative concrete reading (cf. the repository's own tests). -/
def sampleReading : SensorReading :=
  ⟨"chip_temp1_input", "CPU", 41, "Â°C", 0, "CPU"⟩

/-- A second reading for the same sensor, captured one time unit later. -/
def sampleReading2 : SensorReading :=
  ⟨"chip_temp1_input", "CPU", 44, "Â°C", 1, "CPU"⟩

/-- A reading whose integer value stands in for the spec scenario value
`v`, on the same sensor key. -/
def valueReading (v : Int) (t : Int) : SensorReading :=
  ⟨"chip_temp1_input", "CPU", v, "Â°C", t, "CPU"⟩

/-- A reading callback that returns normally. -/
def okReadingCallback : RCallback := fun _ => none

/-- A reading callback that raises on every batch. -/
def failingReadingCallback : RCallback := fun _ => some (.callbackFailure 7)

/-- An error callback that returns normally. -/
def okErrorCallback : ECallback := fun _ => none

/-- An error callback that raises on every error. -/
def failingErrorCallback : ECallback := fun _ => some (.callbackFailure 99)

/-- A representative source error. -/
def sampleError : Exc := .runtimeError "sensors command failed: boom"

/-! ## C4 — bounded history with FIFO eviction -/

/-- C4 counterexample: the claim quantifies over *every* capacity fixed at
construction, but for capacity `0` the Python statement
`del self.readings[:-self.max_size]` deletes the empty slice `[:0]`, so
after one append the history holds 1 reading, not `min(1, 0) = 0`, and the
invariant `len(entries) ≤ capacity` fails. -/
theorem c4_capacity_zero_counterexample :
    ¬ ((([sampleReading] : List SensorReading).foldl
          TemperatureHistory.add_reading ⟨[], 0⟩).readings.length
        = min ([sampleReading] : List SensorReading).length 0
      ∧ (([sampleReading] : List SensorReading).foldl
          TemperatureHistory.add_reading ⟨[], 0⟩).readings.length ≤ 0) := by
  decide

/-- C4 (amended to capacities `C ≥ 1`): after `N` single-reading appends to
a fresh history of capacity `C`, `len(entries) = min N C`, the retained
entries are exactly the last `C` inserted in insertion order, and
`len(entries) ≤ capacity` holds after every individual append. -/
theorem c4_history_bounded_fifo (C : Nat) (hC : 1 ≤ C) (rs : List SensorReading) :
    (rs.foldl TemperatureHistory.add_reading ⟨[], C⟩).readings
        = rs.drop (rs.length - C)
    ∧ (rs.foldl TemperatureHistory.add_reading ⟨[], C⟩).readings.length
        = min rs.length C
    ∧ ∀ n : Nat,
        ((rs.take n).foldl TemperatureHistory.add_reading ⟨[], C⟩).readings.length
          ≤ C := by
  have key : ∀ l : List SensorReading,
      (l.foldl TemperatureHistory.add_reading ⟨[], C⟩).readings
        = l.drop (l.length - C) := by
    intro l
    have h := congrArg TemperatureHistory.readings
      (TemperatureHistory.foldl_add_reading C hC [] l)
    simpa using h
  refine ⟨key rs, ?_, ?_⟩
  · rw [key rs]
    simp only [List.length_drop]
    omega
  · intro n
    rw [key (rs.take n)]
    simp only [List.length_drop]
    omega

/-- Witness for `c4_history_bounded_fifo`: the spec's concrete scenario —
capacity 3, values `[1, 2, 3, 4, 5]` appended, final entries `[3, 4, 5]`. -/
theorem c4_history_bounded_fifo_witness :
    (([valueReading 1 0, valueReading 2 1, valueReading 3 2, valueReading 4 3,
        valueReading 5 4] : List SensorReading).foldl
      TemperatureHistory.add_reading ⟨[], 3⟩).readings
    = [valueReading 3 2, valueReading 4 3, valueReading 5 4] := by
  have h := (c4_history_bounded_fifo 3 (by decide)
    [valueReading 1 0, valueReading 2 1, valueReading 3 2, valueReading 4 3,
     valueReading 5 4]).1
  rw [h]
  decide

/-! ## C5 — time-window query -/

/-- C5: `get_readings_for_timeframe` returns exactly the stored readings
with `timestamp >= now - minutes`, in their existing order (a sublist of
the store); with window 0 it is empty whenever all stored timestamps lie
strictly before `now`, and a window covering every entry returns the whole
store. -/
theorem c5_window_query (h : TemperatureHistory) (now minutes : Int) :
    (∀ r : SensorReading,
        r ∈ h.get_readings_for_timeframe now minutes ↔
          r ∈ h.readings ∧ now - minutes ≤ r.timestamp)
    ∧ (h.get_readings_for_timeframe now minutes).Sublist h.readings
    ∧ ((∀ r ∈ h.readings, r.timestamp < now) →
        h.get_readings_for_timeframe now 0 = [])
    ∧ ((∀ r ∈ h.readings, now - minutes ≤ r.timestamp) →
        h.get_readings_for_timeframe now minutes = h.readings) := by
  refine ⟨?_, ?_, ?_, ?_⟩
  · intro r
    simp [TemperatureHistory.get_readings_for_timeframe]
  · exact List.filter_sublist _
  · intro hall
    rw [TemperatureHistory.get_readings_for_timeframe, List.filter_eq_nil_iff]
    intro r hr
    have := hall r hr
    simp only [decide_eq_true_eq]
    omega
  · intro hall
    rw [TemperatureHistory.get_readings_for_timeframe, List.filter_eq_self]
    intro r hr
    simp only [decide_eq_true_eq]
    exact hall r hr

/-- Witness for `c5_window_query` at a concrete history: a window of 0 at a
later clock excludes everything, a window reaching back far enough returns
everything. -/
theorem c5_window_query_witness :
    (TemperatureHistory.mk [sampleReading, sampleReading2] 1000).get_readings_for_timeframe
        10 0 = []
    ∧ (TemperatureHistory.mk [sampleReading, sampleReading2] 1000).get_readings_for_timeframe
        10 20 = [sampleReading, sampleReading2] := by
  constructor
  · exact (c5_window_query ⟨[sampleReading, sampleReading2], 1000⟩ 10 0).2.2.1
      (by decide)
  · exact (c5_window_query ⟨[sampleReading, sampleReading2], 1000⟩ 10 20).2.2.2
      (by decide)

/-! ## Helper lemmas about the drain operation -/

/-- Whatever the callbacks do, the reading phase invokes every reading
callback on the batch, in registration order. -/
theorem runReadingCallbacks_fst (cbs : List RCallback) (b : Batch) (idx : Nat) :
    (runReadingCallbacks cbs b idx).1 =
      (List.range cbs.length).map fun j => (idx + j, b) := by
  induction cbs generalizing idx with
  | nil => rfl
  | cons cb rest ih =>
    have hfun : (fun j : Nat => (idx + 1 + j, b)) = fun j : Nat => (idx + (j + 1), b) := by
      funext j
      congr 1
      omega
    cases hcb : cb b <;>
      simp only [runReadingCallbacks, hcb, List.length_cons, List.range_succ_eq_map,
        List.map_cons, List.map_map, Function.comp_def, Nat.succ_eq_add_one,
        ih, hfun, Nat.add_zero]

/-- The errors queued by the reading phase on one batch are exactly one per
raising callback, in registration order. -/
theorem runReadingCallbacks_snd (cbs : List RCallback) (b : Batch) (idx : Nat) :
    (runReadingCallbacks cbs b idx).2 = cbs.filterMap fun cb => cb b := by
  induction cbs generalizing idx with
  | nil => rfl
  | cons cb rest ih =>
    cases hcb : cb b <;> simp [runReadingCallbacks, hcb, List.filterMap_cons, ih]

/-- Whatever the callbacks do, the error phase invokes every error callback
on the error, in registration order. -/
theorem runErrorCallbacks_eq (cbs : List ECallback) (e : Exc) (idx : Nat) :
    runErrorCallbacks cbs e idx =
      (List.range cbs.length).map fun j => (idx + j, e) := by
  induction cbs generalizing idx with
  | nil => rfl
  | cons cb rest ih =>
    have hfun : (fun j : Nat => (idx + 1 + j, e)) = fun j : Nat => (idx + (j + 1), e) := by
      funext j
      congr 1
      omega
    cases hcb : cb e <;>
      simp only [runErrorCallbacks, hcb, List.length_cons, List.range_succ_eq_map,
        List.map_cons, List.map_map, Function.comp_def, Nat.succ_eq_add_one,
        ih, hfun, Nat.add_zero]

/-- The reading phase over the whole queue: the full (callback, batch)
product, batches in FIFO order, callbacks in registration order. -/
theorem drainBatches_fst (rcbs : List RCallback) (bs : List Batch) :
    (drainBatches rcbs bs).1 =
      bs.flatMap fun b => (List.range rcbs.length).map fun j => (j, b) := by
  induction bs with
  | nil => rfl
  | cons b rest ih =>
    simp [drainBatches, runReadingCallbacks_fst, ih]

/-- The errors queued over the whole queue: batch by batch, one error per
raising callback. -/
theorem drainBatches_snd (rcbs : List RCallback) (bs : List Batch) :
    (drainBatches rcbs bs).2 =
      bs.flatMap fun b => rcbs.filterMap fun cb => cb b := by
  induction bs with
  | nil => rfl
  | cons b rest ih =>
    simp [drainBatches, runReadingCallbacks_snd, ih]

/-- The error phase over the whole error queue: the full (callback, error)
product, errors in FIFO order. -/
theorem drainErrors_eq (ecbs : List ECallback) (es : List Exc) :
    drainErrors ecbs es =
      es.flatMap fun e => (List.range ecbs.length).map fun k => (k, e) := by
  induction es with
  | nil => rfl
  | cons e rest ih =>
    simp [drainErrors, runErrorCallbacks_eq, ih]

/-- Filtering the (index, batch) pairs built over `range n` down to one
index `i < n` leaves exactly the one pair `(i, b)`. -/
theorem filter_range_pairs (n i : Nat) (hi : i < n) (b : Batch) :
    (((List.range n).map fun j => (j, b)).filter fun p => p.1 == i) = [(i, b)] := by
  induction n with
  | zero => omega
  | succ m ih =>
    rw [List.range_succ]
    rcases Nat.lt_or_ge i m with h | h
    · have hlast : (m == i) = false := by simp; omega
      simp [List.filter_append, ih h, hlast]
    · have hi_eq : i = m := by omega
      have hhead : (((List.range m).map fun j => (j, b)).filter fun p => p.1 == i) = [] := by
        rw [List.filter_eq_nil_iff]
        intro p hp
        rcases List.mem_map.mp hp with ⟨j, hj, hpj⟩
        rw [List.mem_range] at hj
        rw [← hpj]
        simp
        omega
      simp [List.filter_append, hhead, hi_eq]
      intro a ha
      omega

/-! ## C1 — FIFO delivery of pushed batches -/

/-- C1: one `process_pending_callbacks` call invokes each registered
reading-callback exactly once per pushed batch, in FIFO push order, and an
immediately following second call with no intervening pushes invokes no
callbacks at all. -/
theorem c1_drain_fifo_delivery (rcbs : List RCallback) (ecbs : List ECallback)
    (st : ServiceState) (i : Nat) (hi : i < rcbs.length) :
    (((ThermalMonitoringService.process_pending_callbacks rcbs ecbs
          st).2.readingInvocations.filter fun p => p.1 == i).map Prod.snd)
        = st.pendingReadings
    ∧ (ThermalMonitoringService.process_pending_callbacks rcbs ecbs
        (ThermalMonitoringService.process_pending_callbacks rcbs ecbs
          st).1).2.readingInvocations = []
    ∧ (ThermalMonitoringService.process_pending_callbacks rcbs ecbs
        (ThermalMonitoringService.process_pending_callbacks rcbs ecbs
          st).1).2.errorInvocations = [] := by
  refine ⟨?_, rfl, rfl⟩
  show (((drainBatches rcbs st.pendingReadings).1.filter fun p => p.1 == i).map Prod.snd)
      = st.pendingReadings
  rw [drainBatches_fst]
  induction st.pendingReadings with
  | nil => rfl
  | cons b rest ih =>
    rw [List.flatMap_cons, List.filter_append, List.map_append,
      filter_range_pairs rcbs.length i hi, ih]
    rfl

/-- Witness for `c1_drain_fifo_delivery`: one registered callback, two
pushed batches, delivered once each in push order. -/
theorem c1_drain_fifo_delivery_witness :
    ((ThermalMonitoringService.process_pending_callbacks [okReadingCallback] []
        ⟨[], [[sampleReading], [sampleReading2]], []⟩).2.readingInvocations.filter
        fun p => p.1 == 0).map Prod.snd = [[sampleReading], [sampleReading2]] :=
  (c1_drain_fifo_delivery [okReadingCallback] []
    ⟨[], [[sampleReading], [sampleReading2]], []⟩ 0 (by decide)).1

/-! ## C2 — a raising reading-callback is isolated -/

/-- C2: when some reading-callback raises on some pending batch, the drain
catches it, queues exactly one error per failing invocation (in FIFO
order), and still delivers every pending batch to every reading-callback
within the same call. -/
theorem c2_reading_callback_failure (rcbs : List RCallback) (ecbs : List ECallback)
    (st : ServiceState)
    (hfail : ∃ b ∈ st.pendingReadings, ∃ cb ∈ rcbs, (cb b).isSome) :
    (ThermalMonitoringService.process_pending_callbacks rcbs ecbs st).2.queuedErrors
        = st.pendingReadings.flatMap (fun b => rcbs.filterMap fun cb => cb b)
    ∧ (ThermalMonitoringService.process_pending_callbacks rcbs ecbs
        st).2.readingInvocations
        = st.pendingReadings.flatMap fun b =>
            (List.range rcbs.length).map fun j => (j, b) :=
  ⟨drainBatches_snd rcbs st.pendingReadings, drainBatches_fst rcbs st.pendingReadings⟩

/-- Witness for `c2_reading_callback_failure`: the first of two callbacks
raises on both batches; both errors are queued and all four invocations
still happen. -/
theorem c2_reading_callback_failure_witness :
    (ThermalMonitoringService.process_pending_callbacks
        [failingReadingCallback, okReadingCallback] []
        ⟨[], [[sampleReading], [sampleReading2]], []⟩).2.queuedErrors
      = [.callbackFailure 7, .callbackFailure 7]
    ∧ (ThermalMonitoringService.process_pending_callbacks
        [failingReadingCallback, okReadingCallback] []
        ⟨[], [[sampleReading], [sampleReading2]], []⟩).2.readingInvocations
      = [(0, [sampleReading]), (1, [sampleReading]),
         (0, [sampleReading2]), (1, [sampleReading2])] := by
  have h := c2_reading_callback_failure [failingReadingCallback, okReadingCallback] []
    ⟨[], [[sampleReading], [sampleReading2]], []⟩
    ⟨[sampleReading], by simp, failingReadingCallback, by simp, rfl⟩
  constructor
  · rw [h.1]; rfl
  · rw [h.2]; rfl

/-! ## C3 — a raising error-callback is isolated -/

/-- C3: an error-callback that raises on a queued error is caught and
discarded; the remaining error-callbacks for that error and all later
queued errors are still invoked, in order, and the drain call completes
with the error queue emptied (nothing propagates to the caller). -/
theorem c3_error_callback_failure (rcbs : List RCallback) (ecbs : List ECallback)
    (st : ServiceState) (j : Nat) (hj : j < ecbs.length) (e : Exc)
    (he : e ∈ st.pendingErrors ++
        (ThermalMonitoringService.process_pending_callbacks rcbs ecbs st).2.queuedErrors)
    (hraise : ∃ cb ∈ ecbs, (cb e).isSome) :
    (ThermalMonitoringService.process_pending_callbacks rcbs ecbs st).2.errorInvocations
        = (st.pendingErrors ++
            (ThermalMonitoringService.process_pending_callbacks rcbs ecbs
              st).2.queuedErrors).flatMap
            (fun e' => (List.range ecbs.length).map fun k => (k, e'))
    ∧ (ThermalMonitoringService.process_pending_callbacks rcbs ecbs st).1.pendingErrors
        = [] :=
  ⟨drainErrors_eq ecbs _, rfl⟩

/-- Witness for `c3_error_callback_failure`: the first error callback
raises, the second is still invoked on the same queued error. -/
theorem c3_error_callback_failure_witness :
    (ThermalMonitoringService.process_pending_callbacks []
        [failingErrorCallback, okErrorCallback]
        ⟨[], [], [sampleError]⟩).2.errorInvocations
      = [(0, sampleError), (1, sampleError)] := by
  have h := c3_error_callback_failure [] [failingErrorCallback, okErrorCallback]
    ⟨[], [], [sampleError]⟩ 0 (by decide) sampleError (by decide)
    ⟨failingErrorCallback, by simp, rfl⟩
  rw [h.1]
  rfl

/-! ## C10 — callback errors are delivered in the same drain call -/

/-- C10: every error queued by a failing reading-callback during a drain
call is delivered to every registered error-callback within that same
call, and the pending-errors queue is empty afterwards — nothing is
deferred to a later drain. -/
theorem c10_callback_errors_not_deferred (rcbs : List RCallback)
    (ecbs : List ECallback) (st : ServiceState) (e : Exc)
    (he : e ∈ (ThermalMonitoringService.process_pending_callbacks rcbs ecbs
        st).2.queuedErrors)
    (k : Nat) (hk : k < ecbs.length) :
    (k, e) ∈ (ThermalMonitoringService.process_pending_callbacks rcbs ecbs
        st).2.errorInvocations
    ∧ (ThermalMonitoringService.process_pending_callbacks rcbs ecbs st).1.pendingErrors
        = [] := by
  constructor
  · show (k, e) ∈ drainErrors ecbs
      (st.pendingErrors ++ (drainBatches rcbs st.pendingReadings).2)
    rw [drainErrors_eq, List.mem_flatMap]
    refine ⟨e, List.mem_append_right _ he, ?_⟩
    exact List.mem_map.mpr ⟨k, List.mem_range.mpr hk, rfl⟩
  · rfl

/-- Witness for `c10_callback_errors_not_deferred`: the error queued by the
failing reading callback reaches the registered error callback in the same
drain call. -/
theorem c10_callback_errors_not_deferred_witness :
    ((0 : Nat), Exc.callbackFailure 7) ∈
      (ThermalMonitoringService.process_pending_callbacks [failingReadingCallback]
        [okErrorCallback] ⟨[], [[sampleReading]], []⟩).2.errorInvocations :=
  (c10_callback_errors_not_deferred [failingReadingCallback] [okErrorCallback]
    ⟨[], [[sampleReading]], []⟩ (.callbackFailure 7) (by decide) 0 (by decide)).1

/-! ## C6 — single recorded reading is visible through `historyFor` -/

/-- C6 counterexample: the claim quantifies over *every* window `w`, but
with the reading recorded at time 0 and the query issued at clock 1 with
window 0, the threshold `now - w = 1` excludes the reading, so the result
is `[]`, not `[r]`. -/
theorem c6_any_window_counterexample :
    ThermalMonitoringService.get_historical_readings
        (ThermalMonitoringService._record_readings ServiceState.empty [sampleReading])
        1 sampleReading.name 0
      ≠ [sampleReading] := by
  decide

/-- C6 (amended to windows reaching back to the recording): after
`_record_readings([r])` on a fresh service, `get_historical_readings`
for `r`'s sensor key returns exactly `[r]` for every window `w` whose
threshold `now - w` does not exceed `r`'s timestamp. -/
theorem c6_single_reading_history (r : SensorReading) (now w : Int)
    (hw : now - w ≤ r.timestamp) :
    ThermalMonitoringService.get_historical_readings
        (ThermalMonitoringService._record_readings ServiceState.empty [r]) now r.name w
      = [r] := by
  simp [ThermalMonitoringService._record_readings, ServiceState.empty, recordOne,
    ThermalMonitoringService.get_historical_readings,
    TemperatureHistory.add_reading, TemperatureHistory.get_readings_for_timeframe]
  omega

/-- Witness for `c6_single_reading_history`: the standard 60-minute window
at clock 1 sees the reading recorded at time 0. -/
theorem c6_single_reading_history_witness :
    ThermalMonitoringService.get_historical_readings
        (ThermalMonitoringService._record_readings ServiceState.empty [sampleReading])
        1 sampleReading.name 60 = [sampleReading] :=
  c6_single_reading_history sampleReading 1 60 (by decide)

/-! ## C7 — `get_current_readings` is a pure passthrough -/

/-- C7: the service's `get_current_readings` returns exactly the monitor's
result, propagates a source `RuntimeError` unchanged to its caller, and
leaves the history map and both pending queues untouched in both the
success and the failure case. -/
theorem c7_current_readings_passthrough (st : ServiceState) (decoded : RawOutcome)
    (now : Int) :
    (ThermalMonitoringService.get_current_readings st decoded now).1.history = st.history
    ∧ (ThermalMonitoringService.get_current_readings st decoded now).1.pendingReadings
        = st.pendingReadings
    ∧ (ThermalMonitoringService.get_current_readings st decoded now).1.pendingErrors
        = st.pendingErrors
    ∧ (ThermalMonitoringService.get_current_readings st decoded now).2
        = HardwareMonitor.get_current_readings decoded now
    ∧ ∀ e : Exc, decoded = .error e →
        (ThermalMonitoringService.get_current_readings st decoded now).2 = .error e := by
  refine ⟨rfl, rfl, rfl, rfl, ?_⟩
  intro e he
  subst he
  rfl

/-- Witness for `c7_current_readings_passthrough`: a failing source is
propagated as-is. -/
theorem c7_current_readings_passthrough_witness :
    (ThermalMonitoringService.get_current_readings ServiceState.empty
        (.error sampleError) 0).2 = .error sampleError :=
  (c7_current_readings_passthrough ServiceState.empty (.error sampleError) 0).2.2.2.2
    sampleError rfl

/-! ## C9 — unknown sensor keys -/

/-- `recordOne` never introduces a key different from the recorded
reading's own sensor key. -/
theorem recordOne_keys (hist : List (String × TemperatureHistory)) (r : SensorReading)
    (k : String) (hr : r.name ≠ k) (hk : ∀ p ∈ hist, p.1 ≠ k) :
    ∀ p ∈ recordOne hist r, p.1 ≠ k := by
  intro p hp
  unfold recordOne at hp
  cases hfind : hist.lookup r.name with
  | none =>
    rw [hfind] at hp
    rcases List.mem_append.mp hp with h | h
    · exact hk p h
    · have hps : p = (r.name, TemperatureHistory.add_reading ⟨[], 1000⟩ r) :=
        List.mem_singleton.mp h
      rw [hps]
      exact hr
  | some h0 =>
    rw [hfind] at hp
    rcases List.mem_map.mp hp with ⟨q, hq, hpq⟩
    by_cases hq1 : q.1 = r.name
    · rw [← hpq, if_pos hq1]
      exact hk q hq
    · rw [← hpq, if_neg hq1]
      exact hk q hq

/-- Recording a batch with no reading for key `k` leaves `k` absent. -/
theorem foldl_recordOne_keys (k : String) (rs : Batch) :
    ∀ hist : List (String × TemperatureHistory),
      (∀ p ∈ hist, p.1 ≠ k) → (∀ r ∈ rs, r.name ≠ k) →
      ∀ p ∈ rs.foldl recordOne hist, p.1 ≠ k := by
  induction rs with
  | nil =>
    intro hist hk _
    exact hk
  | cons r rest ih =>
    intro hist hk hrs
    rw [List.foldl_cons]
    exact ih (recordOne hist r)
      (recordOne_keys hist r k (hrs r (List.mem_cons_self r rest)) hk)
      (fun r' hr' => hrs r' (List.mem_cons_of_mem _ hr'))

/-- Recording any number of batches with no reading for key `k` leaves `k`
absent. -/
theorem foldl_batches_keys (k : String) (batches : List Batch) :
    ∀ hs : List (String × TemperatureHistory),
      (∀ p ∈ hs, p.1 ≠ k) →
      (∀ b ∈ batches, ∀ r ∈ b, r.name ≠ k) →
      ∀ p ∈ batches.foldl (fun hs' b => b.foldl recordOne hs') hs, p.1 ≠ k := by
  induction batches with
  | nil =>
    intro hs hk _
    exact hk
  | cons b rest ih =>
    intro hs hk hb
    rw [List.foldl_cons]
    exact ih (b.foldl recordOne hs)
      (foldl_recordOne_keys k b hs hk (hb b (List.mem_cons_self _ _)))
      (fun b' hb' r hr => hb b' (List.mem_cons_of_mem _ hb') r hr)

/-- An association list with no entry for key `k` looks `k` up to `none`. -/
theorem lookup_eq_none_of_keys (k : String) (hist : List (String × TemperatureHistory))
    (hk : ∀ p ∈ hist, p.1 ≠ k) : hist.lookup k = none := by
  induction hist with
  | nil => rfl
  | cons p rest ih =>
    cases p with
    | mk a hv =>
      have ha : a ≠ k := hk (a, hv) (List.mem_cons_self _ _)
      have hbeq : (k == a) = false := by
        simp only [beq_eq_false_iff_ne, ne_eq]
        exact fun h => ha h.symm
      rw [List.lookup_cons, hbeq]
      exact ih fun q hq => hk q (List.mem_cons_of_mem _ hq)

/-- `_record_readings`, folded over a list of batches, only transforms the
history dict (the queues are untouched). -/
theorem record_batches_history (batches : List Batch) (st : ServiceState) :
    (batches.foldl ThermalMonitoringService._record_readings st).history
      = batches.foldl (fun hs b => b.foldl recordOne hs) st.history := by
  induction batches generalizing st with
  | nil => rfl
  | cons b rest ih =>
    rw [List.foldl_cons, List.foldl_cons]
    exact ih (ThermalMonitoringService._record_readings st b)

/-- C9: for a sensor key for which no reading was ever recorded,
`get_historical_readings` returns `[]` for every window rather than
failing, and `get_all_historical_readings` contains no entry for it. -/
theorem c9_unknown_sensor_key (batches : List Batch) (k : String)
    (hk : ∀ b ∈ batches, ∀ r ∈ b, r.name ≠ k) (now minutes : Int) :
    ThermalMonitoringService.get_historical_readings
        (batches.foldl ThermalMonitoringService._record_readings ServiceState.empty)
        now k minutes = []
    ∧ ∀ p ∈ ThermalMonitoringService.get_all_historical_readings
        (batches.foldl ThermalMonitoringService._record_readings ServiceState.empty)
        now minutes, p.1 ≠ k := by
  have hkeys : ∀ p ∈ (batches.foldl ThermalMonitoringService._record_readings
      ServiceState.empty).history, p.1 ≠ k := by
    rw [record_batches_history]
    exact foldl_batches_keys k batches [] (by intro p hp; cases hp) hk
  constructor
  · rw [ThermalMonitoringService.get_historical_readings,
      lookup_eq_none_of_keys k _ hkeys]
  · intro p hp
    rcases List.mem_map.mp hp with ⟨q, hq, hpq⟩
    rw [← hpq]
    exact hkeys q hq

/-- Witness for `c9_unknown_sensor_key`: after recording one reading for
`chip_temp1_input`, the never-recorded key `gpu0` yields an empty
history. -/
theorem c9_unknown_sensor_key_witness :
    ThermalMonitoringService.get_historical_readings
        ([[sampleReading]].foldl ThermalMonitoringService._record_readings
          ServiceState.empty) 0 "gpu0" 60 = [] :=
  (c9_unknown_sensor_key [[sampleReading]] "gpu0" (by decide) 0 60).1

/-! ## C8 — lifecycle: overlapping monitor loops are reachable -/

/-- C8 fails on the code: `start_monitoring` may run between
`stop_monitoring`'s first lock section and its final `self._thread = None`
assignment (the `thread.join()` between them holds no lock).  The trace
below is: `start` spawns thread 0; `stop` sets the stop event and captures
thread 0; thread 0 observes the event and exits; a concurrent `start` sees
`self._thread` dead, clears the stop event and spawns thread 1; `stop`'s
join on the dead thread 0 returns and its last lock section overwrites
`self._thread` (which pointed to thread 1!) with `None`; a later `start`
then finds `self._thread is None` and spawns thread 2 while thread 1 is
still looping with a cleared stop event — two live sampling loops at
once, which the claim rules out. -/
theorem c8_overlapping_monitor_loops :
    (execLifecycle lifecycleInit
        [.startCall, .stopBegin, .workerExit 0, .startCall, .stopJoin,
         .stopEnd, .startCall]).map (fun s => s.alive.length)
      = some 2 := by
  rfl
